import Mathlib

/-!
Verification of the destination/link reconciliation logic of the
`pdf-destinator` interactive PDF annotation tool
(`src/pdf_destinator/picker.py`).

The Python program keeps its session state in the `PDFDestinationPicker`
object: an ordered list of section dicts, two insertion-ordered
`dict`s mapping destination ids to positions (`destinations` for session
edits, `existing_destinations` for positions discovered in the PDF), and a
list of link-region dicts.  The shallow embedding below models Python
dicts as insertion-ordered association lists with the exact `dict`
semantics (assignment updates in place or appends, `del` removes the key,
lookup finds the key), coordinates as rationals, and each relevant method
as a pure function on an explicit state record.
-/

/-! ## Python dict model (insertion-ordered association lists) -/

/-- Python `d[k]`: value of the first (unique, for a real dict) matching key. -/
def dictLookup {α : Type} (k : String) : List (String × α) → Option α
  | [] => none
  | (k', v) :: rest => if k' = k then some v else dictLookup k rest

/-- Python `d[k] = v`: update the value in place when the key is present,
otherwise append the new pair at the end (insertion order). -/
def dictInsert {α : Type} (k : String) (v : α) : List (String × α) → List (String × α)
  | [] => [(k, v)]
  | (k', v') :: rest => if k' = k then (k, v) :: rest else (k', v') :: dictInsert k v rest

/-- Python `del d[k]` on a dict (whose keys are unique): remove every pair
with the given key. -/
def dictErase {α : Type} (k : String) (d : List (String × α)) : List (String × α) :=
  d.filter (fun e => e.1 != k)

theorem dictLookup_insert_self {α : Type} (k : String) (v : α) :
    ∀ d : List (String × α), dictLookup k (dictInsert k v d) = some v := by
  intro d
  induction d with
  | nil => simp [dictInsert, dictLookup]
  | cons e rest ih =>
    obtain ⟨k', v'⟩ := e
    by_cases h : k' = k
    · simp [dictInsert, dictLookup, h]
    · simp [dictInsert, dictLookup, h, ih]

theorem dictLookup_insert_ne {α : Type} {k k' : String} (v : α) (h : k' ≠ k) :
    ∀ d : List (String × α), dictLookup k (dictInsert k' v d) = dictLookup k d := by
  intro d
  induction d with
  | nil => simp [dictInsert, dictLookup, h]
  | cons e rest ih =>
    obtain ⟨k'', v''⟩ := e
    by_cases h2 : k'' = k'
    · subst h2
      simp [dictInsert, dictLookup, h]
    · by_cases h3 : k'' = k
      · subst h3
        simp [dictInsert, dictLookup, h2, Ne.symm h]
      · simp [dictInsert, dictLookup, h2, h3, ih]

theorem dictLookup_erase_self {α : Type} (k : String) (d : List (String × α)) :
    dictLookup k (dictErase k d) = none := by
  induction d with
  | nil => simp [dictErase, dictLookup]
  | cons e rest ih =>
    obtain ⟨k', v'⟩ := e
    by_cases h : k' = k
    · simpa [dictErase, h] using ih
    · simpa [dictErase, dictLookup, h] using ih

theorem mem_dictInsert {α : Type} {k : String} {v : α} :
    ∀ {d : List (String × α)} {e : String × α}, e ∈ dictInsert k v d → e = (k, v) ∨ e ∈ d := by
  intro d
  induction d with
  | nil => intro e he; simp [dictInsert] at he; exact Or.inl he
  | cons x rest ih =>
    intro e he
    obtain ⟨k', v'⟩ := x
    by_cases h : k' = k
    · simp [dictInsert, h] at he
      rcases he with he | he
      · exact Or.inl he
      · exact Or.inr (List.mem_cons_of_mem _ he)
    · simp [dictInsert, h] at he
      rcases he with he | he
      · exact Or.inr (by simp [he])
      · rcases ih he with h2 | h2
        · exact Or.inl h2
        · exact Or.inr (List.mem_cons_of_mem _ h2)

theorem key_ne_of_mem_dictErase {α : Type} {k : String} {d : List (String × α)}
    {e : String × α} (he : e ∈ dictErase k d) : e.1 ≠ k := by
  have := List.of_mem_filter he
  simpa using this

/-! ## The title-to-id transform (`title_to_id`, picker.py lines 61-70)

The Python function lowercases the title, normalises dashes and
ellipses, strips every character outside `[a-z0-9\s-]`, collapses
whitespace runs to single hyphens, collapses hyphen runs, and strips
leading/trailing hyphens.  `str.lower` and the regex class `\s` are
modelled at the ASCII level (`Char.toLower`, the six ASCII whitespace
characters): characters outside that range are deleted by the following
character-class filter in the model exactly as in the source.
-/

/-- The characters matched by Python's regex `\s` in the ASCII range. -/
def isPySpace (c : Char) : Bool :=
  c = ' ' || c = '\t' || c = '\n' || c = '\r' || c = Char.ofNat 11 || c = Char.ofNat 12

/-- Model of `id_str.replace('–', '-').replace('—', '-')`: both dashes become hyphens. -/
def mapDash (c : Char) : Char :=
  if c = '–' || c = '—' then '-' else c

/-- Model of `id_str.replace('...', '')`: drop each left-to-right occurrence of three dots. -/
def removeDots3 : List Char → List Char
  | '.' :: '.' :: '.' :: rest => removeDots3 rest
  | c :: rest => c :: removeDots3 rest
  | [] => []

/-- The character class kept by `re.sub(r'[^a-z0-9\s-]', '', id_str)`. -/
def keepChar (c : Char) : Bool :=
  (97 ≤ c.toNat && c.toNat ≤ 122) || (48 ≤ c.toNat && c.toNat ≤ 57) || isPySpace c || c = '-'

/-- Model of `re.sub(pat+, r, s)` for a single-character class `pat`: replace every
maximal run of characters satisfying `p` by the single character `r`.
The boolean records whether we are inside a run. -/
def squashRuns (p : Char → Bool) (r : Char) : Bool → List Char → List Char
  | _, [] => []
  | inRun, c :: rest =>
    if p c then
      if inRun then squashRuns p r true rest else r :: squashRuns p r true rest
    else
      c :: squashRuns p r false rest

/-- Python `str.strip`-style trimming: drop characters satisfying `p` from
both ends of the list. -/
def stripEnds (p : Char → Bool) (l : List Char) : List Char :=
  ((l.dropWhile p).reverse.dropWhile p).reverse

/-- Function `title_to_id(title)` (picker.py lines 61-70): convert a title to a
URL-friendly id. -/
def title_to_id (title : String) : String :=
  let s1 := title.data.map Char.toLower
  let s2 := s1.map mapDash
  let s3 := s2.filter (fun c => c != '…')
  let s4 := removeDots3 s3
  let s5 := s4.filter keepChar
  let s6 := squashRuns isPySpace '-' false s5
  let s7 := squashRuns (fun c => c == '-') '-' false s6
  String.mk (stripEnds (fun c => c == '-') s7)

/-- Characters that may appear in an id produced by `title_to_id`:
lowercase ASCII letters, digits, and the hyphen. -/
def isIdChar (c : Char) : Bool :=
  (97 ≤ c.toNat && c.toNat ≤ 122) || (48 ≤ c.toNat && c.toNat ≤ 57) || c = '-'

theorem mem_squashRuns {p : Char → Bool} {r : Char} :
    ∀ {l : List Char} {b : Bool} {c : Char},
      c ∈ squashRuns p r b l → c = r ∨ (c ∈ l ∧ p c = false) := by
  intro l
  induction l with
  | nil => intro b c h; simp [squashRuns] at h
  | cons a rest ih =>
    intro b c h
    by_cases hp : p a
    · cases b with
      | true =>
        simp only [squashRuns, hp, if_true] at h
        rcases ih h with h2 | h2
        · exact Or.inl h2
        · exact Or.inr ⟨List.mem_cons_of_mem _ h2.1, h2.2⟩
      | false =>
        simp only [squashRuns, hp, if_true] at h
        rcases List.mem_cons.mp h with h2 | h2
        · exact Or.inl h2
        · rcases ih h2 with h3 | h3
          · exact Or.inl h3
          · exact Or.inr ⟨List.mem_cons_of_mem _ h3.1, h3.2⟩
    · simp only [squashRuns, hp, if_false, Bool.false_eq_true] at h
      rcases List.mem_cons.mp h with h2 | h2
      · subst h2
        exact Or.inr ⟨List.mem_cons_self _ _, by simpa using hp⟩
      · rcases ih h2 with h3 | h3
        · exact Or.inl h3
        · exact Or.inr ⟨List.mem_cons_of_mem _ h3.1, h3.2⟩

theorem mem_of_mem_dropWhile {p : Char → Bool} :
    ∀ {l : List Char} {c : Char}, c ∈ l.dropWhile p → c ∈ l := by
  intro l
  induction l with
  | nil => intro c h; simp [List.dropWhile] at h
  | cons a rest ih =>
    intro c h
    by_cases hp : p a
    · simp only [List.dropWhile, hp] at h
      exact List.mem_cons_of_mem _ (ih h)
    · simp only [List.dropWhile, hp] at h
      exact h

theorem mem_of_mem_stripEnds {p : Char → Bool} {l : List Char} {c : Char}
    (h : c ∈ stripEnds p l) : c ∈ l := by
  unfold stripEnds at h
  rw [List.mem_reverse] at h
  have h2 := mem_of_mem_dropWhile h
  rw [List.mem_reverse] at h2
  exact mem_of_mem_dropWhile h2

theorem head_dropWhile_false {p : Char → Bool} :
    ∀ {l : List Char} {c : Char}, (l.dropWhile p).head? = some c → p c = false := by
  intro l
  induction l with
  | nil => intro c h; simp [List.dropWhile] at h
  | cons a rest ih =>
    intro c h
    by_cases hp : p a
    · simp only [List.dropWhile, hp] at h
      exact ih h
    · simp only [List.dropWhile, hp] at h
      simp only [List.head?] at h
      cases h
      simpa using hp

theorem getLast_dropWhile_of_ne_nil {p : Char → Bool} :
    ∀ {l : List Char}, l.dropWhile p ≠ [] → (l.dropWhile p).getLast? = l.getLast? := by
  intro l
  induction l with
  | nil => intro h; simp [List.dropWhile] at h
  | cons a rest ih =>
    intro h
    by_cases hp : p a
    · simp only [List.dropWhile, hp] at h ⊢
      have hrest : rest ≠ [] := by
        intro he
        subst he
        simp [List.dropWhile] at h
      rw [ih h]
      cases rest with
      | nil => exact absurd rfl hrest
      | cons b t => simp [List.getLast?]
    · simp only [List.dropWhile, hp]

theorem stripEnds_getLast_ok (p : Char → Bool) (l : List Char) :
    (stripEnds p l).getLast?.all (fun c => !p c) = true := by
  unfold stripEnds
  rw [List.getLast?_reverse]
  cases hh : ((l.dropWhile p).reverse.dropWhile p).head? with
  | none => rfl
  | some c =>
    have hf := head_dropWhile_false hh
    simp [Option.all, hf]

theorem stripEnds_head_ok (p : Char → Bool) (l : List Char) :
    (stripEnds p l).head?.all (fun c => !p c) = true := by
  unfold stripEnds
  rw [List.head?_reverse]
  by_cases h1 : (l.dropWhile p).reverse.dropWhile p = []
  · rw [h1]; rfl
  · rw [getLast_dropWhile_of_ne_nil h1, List.getLast?_reverse]
    cases hh : (l.dropWhile p).head? with
    | none => rfl
    | some c =>
      have hf := head_dropWhile_false hh
      simp [Option.all, hf]

theorem title_to_id_mem_isIdChar (t : String) :
    ∀ c ∈ (title_to_id t).data, isIdChar c = true := by
  intro c hc
  simp only [title_to_id] at hc
  have hc7 := mem_of_mem_stripEnds hc
  rcases mem_squashRuns hc7 with h | h
  · subst h; rfl
  · rcases mem_squashRuns h.1 with h2 | h2
    · subst h2; rfl
    · have hk : keepChar c = true := List.of_mem_filter h2.1
      have hs : isPySpace c = false := h2.2
      simp only [keepChar, hs, Bool.or_false, Bool.or_eq_true, Bool.and_eq_true,
        decide_eq_true_eq] at hk
      simp only [isIdChar, Bool.or_eq_true, Bool.and_eq_true, decide_eq_true_eq]
      tauto

theorem isIdChar_not_space (c : Char) (h : isIdChar c = true) : isPySpace c = false := by
  cases hb : isPySpace c
  · rfl
  · exfalso
    simp only [isPySpace, Bool.or_eq_true, decide_eq_true_eq] at hb
    rcases hb with ((((h1 | h1) | h1) | h1) | h1) | h1 <;> (subst h1; exact absurd h (by decide))

/-- Claim C5: the title-to-id transform is deterministic (equal inputs give
equal outputs on repeated calls), and for every input title its output is
entirely lowercase (every character is a lowercase ASCII letter, a digit, or
a hyphen), contains no whitespace, and never starts or ends with a hyphen;
the title "Chapter 1: The Beginning…" maps to "chapter-1-the-beginning". -/
theorem title_to_id_spec : ∀ t : String,
    title_to_id t = title_to_id t
  ∧ (title_to_id t).data.all isIdChar = true
  ∧ (title_to_id t).data.all (fun c => !isPySpace c) = true
  ∧ (title_to_id t).data.head?.all (fun c => c != '-') = true
  ∧ (title_to_id t).data.getLast?.all (fun c => c != '-') = true
  ∧ title_to_id "Chapter 1: The Beginning…" = "chapter-1-the-beginning" := by
  intro t
  refine ⟨rfl, ?_, ?_, ?_, ?_, ?_⟩
  · exact List.all_eq_true.mpr (title_to_id_mem_isIdChar t)
  · refine List.all_eq_true.mpr ?_
    intro c hc
    simp [isIdChar_not_space c (title_to_id_mem_isIdChar t c hc)]
  · exact stripEnds_head_ok (fun c => c == '-') _
  · exact stripEnds_getLast_ok (fun c => c == '-') _
  · rfl

/-! ## Data model

`PDFDestinationPicker` state (picker.py `__init__`, lines 96-119), with
coordinates as rationals.  A "section" is one of the dicts held in
`self.sections`; `self.destinations` and `self.existing_destinations` map a
destination id to a `(page, x, y)` position in the unscaled top-left-origin
store space; `self.link_annotations` holds the link-region dicts.
-/

/-- A rectangle `(x0, y0, x1, y1)` as stored in a link dict. -/
structure Rect4 where
  x0 : ℚ
  y0 : ℚ
  x1 : ℚ
  y1 : ℚ
  deriving DecidableEq

/-- One entry of `self.sections`: a Python dict with optional keys
`id`, `title`, `type` and the `custom` marker. -/
structure SectionEntry where
  id : Option String
  title : Option String
  stype : Option String
  custom : Bool
  deriving DecidableEq

/-- One entry of `self.link_annotations`:
`{page, rect, dest_id, type, existing}`. -/
structure LinkAnnot where
  page : Nat
  rect : Rect4
  dest_id : String
  ltype : String
  existing : Bool
  deriving DecidableEq

/-- A destination position `(page_num, x, y)`. -/
abbrev DestPos := Nat × ℚ × ℚ

/-- The session state of `PDFDestinationPicker`. -/
structure PickerState where
  sections : List SectionEntry
  current_section_idx : Nat
  destinations : List (String × DestPos)
  existing_destinations : List (String × DestPos)
  custom_sections : List SectionEntry
  link_annotations : List LinkAnnot
  original_link_count : Nat
  current_page : Nat
  zoom : ℚ
  deriving DecidableEq

/-- Model of `section.get('id', title_to_id(section.get('title', '')))`: the
effective id of a section dict. -/
def sectionId (s : SectionEntry) : String :=
  s.id.getD (title_to_id (s.title.getD ""))

/-! ## Coordinate mapper

The conversions are inlined in the source: loading flips the PDF y
coordinate (`y = page_height - pdf_y`, picker.py lines 178 and 262) into
the top-left-origin unscaled store space, the canvas display scales the
store coordinates by the zoom factor (`canvas_x = x * self.zoom`, lines
687-688), mouse input divides by the zoom factor (`pdf_x = x0 / self.zoom`,
lines 801-802), and saving flips back (`pdf_y = page_height - y`, line
1039).
-/

/-- Store space to zoomed display space (picker.py lines 687-688). -/
def storeToDisplay (p : ℚ × ℚ) (zoom : ℚ) : ℚ × ℚ :=
  (p.1 * zoom, p.2 * zoom)

/-- Zoomed display space to store space (picker.py lines 801-802). -/
def displayToStore (p : ℚ × ℚ) (zoom : ℚ) : ℚ × ℚ :=
  (p.1 / zoom, p.2 / zoom)

/-- Native (bottom-left-origin) PDF space to store space (picker.py
lines 178, 262): flip the y axis using the page height. -/
def nativeToStore (p : ℚ × ℚ) (pageHeight : ℚ) : ℚ × ℚ :=
  (p.1, pageHeight - p.2)

/-- Store space back to native PDF space (picker.py line 1039). -/
def storeToNative (p : ℚ × ℚ) (pageHeight : ℚ) : ℚ × ℚ :=
  (p.1, pageHeight - p.2)

/-- Full native-to-display conversion:
`displayX = nativeX * zoom`, `displayY = (pageHeight - nativeY) * zoom`. -/
def toDisplay (p : ℚ × ℚ) (pageHeight zoom : ℚ) : ℚ × ℚ :=
  storeToDisplay (nativeToStore p pageHeight) zoom

/-- Full display-to-native conversion: divide by the zoom factor first,
then un-flip the y axis with the page height. -/
def toNative (p : ℚ × ℚ) (pageHeight zoom : ℚ) : ℚ × ℚ :=
  storeToNative (displayToStore p zoom) pageHeight

/-! ## Load-time discovery (picker.py lines 121-364) -/

/-- Method 1 of `load_existing_destinations` (lines 133-139): every
destination resolved from the `/Names` tree is assigned into the
`existing_destinations` dict in order. -/
def load_dests_names (names : List (String × DestPos)) : List (String × DestPos) :=
  names.foldl (fun acc nv => dictInsert nv.1 nv.2 acc) []

/-- Both methods of `load_existing_destinations` (lines 133-185): the
`/Names` tree entries are loaded first; a catalog `/Dests` entry is skipped
when its name is already present (`if clean_name in self.existing_destinations:
continue`, line 149) and assigned otherwise. -/
def load_existing_destinations (names catalog : List (String × DestPos)) :
    List (String × DestPos) :=
  catalog.foldl
    (fun acc nv => if (dictLookup nv.1 acc).isSome then acc else dictInsert nv.1 nv.2 acc)
    (load_dests_names names)

/-- Method `_find_destination_by_position` (picker.py lines 358-364): the first
discovered destination on exactly the given page whose coordinates are both
strictly within `tolerance` of the given point. -/
def find_destination_by_position (dests : List (String × DestPos)) (page_num : Nat)
    (x y tolerance : ℚ) : Option String :=
  match dests with
  | [] => none
  | e :: rest =>
    if e.2.1 = page_num ∧ |e.2.2.1 - x| < tolerance ∧ |e.2.2.2 - y| < tolerance then some e.1
    else find_destination_by_position rest page_num x y tolerance

/-- Classification of one `LINK_GOTO` annotation in `load_existing_links`
(picker.py lines 309-348).  `dest_name` is the link's explicit target name
(`None` when absent or empty), `dest_to` its raw target position.  A raw
position is resolved through `_find_destination_by_position` with tolerance
5; when resolution fails the link is kept with the synthesized pseudo-target
`page-<n+1>`.  The function is total: classification always produces a link
entry, so a resolution failure is never fatal to loading. -/
def classify_goto_link (existing : List (String × DestPos)) (page_num : Nat) (rect : Rect4)
    (dest_page : Nat) (dest_name : Option String) (dest_to : Option (ℚ × ℚ)) : LinkAnnot :=
  match dest_name with
  | some n => ⟨page_num, rect, n, "local", true⟩
  | none =>
    match dest_to with
    | some pt =>
      match find_destination_by_position existing dest_page pt.1 pt.2 5 with
      | some d => ⟨page_num, rect, d, "local", true⟩
      | none => ⟨page_num, rect, "page-" ++ toString (dest_page + 1), "page", true⟩
    | none => ⟨page_num, rect, "page-" ++ toString (dest_page + 1), "page", true⟩

/-! ## Session mutations -/

/-- The URL pattern of `add_custom_destination` (picker.py line 524):
`re.compile(r'^https?://', re.IGNORECASE).match(text)`, i.e. a
case-insensitive check that the text starts with `http://` or
`https://`. -/
def isUrlInput (t : String) : Bool :=
  List.isPrefixOf "http://".data (t.data.map Char.toLower)
    || List.isPrefixOf "https://".data (t.data.map Char.toLower)

/-- Method `add_custom_destination` (picker.py lines 513-542).  The argument is the
dialog result: `none` models a cancelled dialog.  Python's `if text:` is
false for `None` and for the empty string; otherwise the input is stripped,
classified as URL or local, and appended. -/
def add_custom_destination (st : PickerState) (text : Option String) : PickerState :=
  match text with
  | none => st
  | some t =>
    if t = "" then st
    else
      let text := String.mk (stripEnds isPySpace t.data)
      let isUrl := isUrlInput text
      if isUrl then
        let d : SectionEntry := ⟨some text, some text, some "url", true⟩
        { st with sections := st.sections ++ [d],
                  custom_sections := st.custom_sections ++ [d],
                  current_section_idx := st.sections.length }
      else
        let d : SectionEntry := ⟨some (title_to_id text), some text, some "local", true⟩
        { st with sections := st.sections ++ [d],
                  custom_sections := st.custom_sections ++ [d],
                  current_section_idx := st.sections.length }

/-- Method `remove_destination` (picker.py lines 544-578): with a valid current
index and a confirming user, pop the section, drop it from
`custom_sections`, delete its id from both position dicts, drop every link
annotation whose `dest_id` is the removed id, and clamp the current index.
An out-of-range index returns before the confirmation dialog. -/
def remove_destination (confirm : Bool) (st : PickerState) : PickerState :=
  match st.sections.get? st.current_section_idx with
  | none => st
  | some s =>
    if !confirm then st
    else
      let sid := sectionId s
      let sections' := st.sections.eraseIdx st.current_section_idx
      { st with
        sections := sections',
        custom_sections := st.custom_sections.erase s,
        destinations := dictErase sid st.destinations,
        existing_destinations := dictErase sid st.existing_destinations,
        link_annotations := st.link_annotations.filter (fun l => l.dest_id != sid),
        current_section_idx :=
          if sections'.length ≤ st.current_section_idx && 0 < sections'.length then
            sections'.length - 1
          else st.current_section_idx }

/-- Method `remove_current_destination` (picker.py lines 967-984): delete the
current section's id from both the session edit map `destinations` and the
discovered map `existing_destinations`. -/
def remove_current_destination (st : PickerState) : PickerState :=
  match st.sections.get? st.current_section_idx with
  | none => st
  | some s =>
    { st with
      destinations := dictErase (sectionId s) st.destinations,
      existing_destinations := dictErase (sectionId s) st.existing_destinations }

/-- Handler `on_mouse_up` (picker.py lines 773-827), given the drag start
`(x0, y0)` and the release point `(x1, y1)` in canvas coordinates.  A
movement whose Euclidean distance is below 10 display units is a click
(the source compares `dist < 10`; the model compares the squares, which is
equivalent for nonnegative numbers and stays rational): it stores the
drag-start point divided by the zoom factor as the current section's
position.  Otherwise the normalised rectangle divided by the zoom factor is
appended as a new, non-existing link region for the current section. -/
def on_mouse_up (st : PickerState) (x0 y0 x1 y1 : ℚ) : PickerState :=
  match st.sections.get? st.current_section_idx with
  | none => st
  | some s =>
    let sid := sectionId s
    let isUrl := s.stype == some "url"
    if (x1 - x0) ^ 2 + (y1 - y0) ^ 2 < 100 then
      if isUrl then st
      else
        { st with destinations :=
            dictInsert sid (st.current_page, x0 / st.zoom, y0 / st.zoom) st.destinations }
    else
      let r : Rect4 :=
        ⟨min x0 x1 / st.zoom, min y0 y1 / st.zoom, max x0 x1 / st.zoom, max y0 y1 / st.zoom⟩
      { st with link_annotations := st.link_annotations ++
          [⟨st.current_page, r, sid, if isUrl then "url" else "local", false⟩] }

/-! ## Hit testing (picker.py lines 829-873) -/

/-- The containment test both loops use: the link is on the current page
and the canvas point lies inside the zoom-scaled rectangle (inclusive). -/
def linkHit (zoom : ℚ) (page : Nat) (cx cy : ℚ) (l : LinkAnnot) : Bool :=
  l.page == page
    && (l.rect.x0 * zoom ≤ cx) && (cx ≤ l.rect.x1 * zoom)
    && (l.rect.y0 * zoom ≤ cy) && (cy ≤ l.rect.y1 * zoom)

/-- Index of the first list element satisfying `p`, as computed by the
`for i, link in enumerate(...)` loops with an early `break`. -/
def findHitIdx {α : Type} (p : α → Bool) : List α → Option Nat
  | [] => none
  | a :: rest => if p a then some 0 else (findHitIdx p rest).map (· + 1)

/-- Delete the first element satisfying `p`, returning the new list and
whether anything was deleted (the loop of `delete_link_at_position`). -/
def deleteFirstHit {α : Type} (p : α → Bool) : List α → List α × Bool
  | [] => ([], false)
  | a :: rest =>
    if p a then (rest, true)
    else
      let r := deleteFirstHit p rest
      (a :: r.1, r.2)

/-- The hover search of `on_mouse_motion` (picker.py lines 829-855): the
index of the first link region on the current page containing the point. -/
def on_mouse_motion_hover (st : PickerState) (cx cy : ℚ) : Option Nat :=
  findHitIdx (linkHit st.zoom st.current_page cx cy) st.link_annotations

/-- Method `delete_link_at_position` (picker.py lines 857-873): delete the first
link region on the current page containing the point; report whether one
was deleted. -/
def delete_link_at_position (st : PickerState) (cx cy : ℚ) : PickerState × Bool :=
  let r := deleteFirstHit (linkHit st.zoom st.current_page cx cy) st.link_annotations
  ({ st with link_annotations := r.1 }, r.2)

/-! ## Save-time diff (`save_and_quit`, picker.py lines 986-1125) -/

/-- Set `url_ids` (picker.py line 993): ids of the sections typed `url`. -/
def url_ids (st : PickerState) : List String :=
  st.sections.filterMap (fun s => if s.stype == some "url" then s.id else none)

/-- Lines 989-994: `all_destinations` starts from the discovered
`existing_destinations`, is overlaid by the session's `destinations`
(session values win on id collision), and drops URL ids. -/
def all_destinations (st : PickerState) : List (String × DestPos) :=
  (st.destinations.foldl (fun acc kv => dictInsert kv.1 kv.2 acc)
    st.existing_destinations).filter (fun kv => !(url_ids st).contains kv.1)

/-- Line 997: session links not marked `existing`. -/
def new_links (st : PickerState) : List LinkAnnot :=
  st.link_annotations.filter (fun l => !l.existing)

/-- Line 998: session links still marked `existing`. -/
def kept_existing_links (st : PickerState) : List LinkAnnot :=
  st.link_annotations.filter (fun l => l.existing)

/-- Line 999: how many originally loaded links are gone from the session. -/
def removed_existing_links (st : PickerState) : Int :=
  (st.original_link_count : Int) - (kept_existing_links st).length

/-- Line 1000: `has_link_changes = new_links or removed_existing_links > 0`. -/
def has_link_changes (st : PickerState) : Bool :=
  !(new_links st).isEmpty || removed_existing_links st > 0

/-- Lines 1073-1103: delete every link annotation currently in the
document, then re-insert each session link in list order. -/
def rewrite_links (sessionLinks : List LinkAnnot) : List LinkAnnot :=
  sessionLinks.foldl (fun acc l => acc ++ [l]) []

/-- The link annotations of the written document: rewritten from the
session list when there are link changes (lines 1064-1110), untouched
otherwise (line 1112). -/
def finalDocLinks (st : PickerState) (docLinks : List LinkAnnot) : List LinkAnnot :=
  if has_link_changes st then rewrite_links st.link_annotations else docLinks

/-- Outcome of a save attempt. -/
inductive SaveResult
  | noChanges
  | missingDependency
  | saved (dests : List (String × DestPos)) (links : List LinkAnnot)
  deriving DecidableEq

/-- Method `save_and_quit` (picker.py lines 986-1125) as a pure function of the
session state, the availability of the `pypdf` write-time dependency, and
the document's current link list.  The method computes the merged
destination map and the link diff, exits early when there is nothing to
write (lines 1002-1006), aborts with an error dialog when `pypdf` cannot
be imported (lines 1012-1020), and otherwise writes the destinations and
the rewritten links.  It assigns to none of the session's own fields, so
the state component is returned unchanged. -/
def save_and_quit (pypdfAvailable : Bool) (st : PickerState) (docLinks : List LinkAnnot) :
    PickerState × SaveResult :=
  if (all_destinations st).isEmpty && !has_link_changes st then (st, .noChanges)
  else if !pypdfAvailable then (st, .missingDependency)
  else (st, .saved (all_destinations st) (finalDocLinks st docLinks))

/-! ## Helper lemmas -/

theorem foldl_append_eq {α : Type} : ∀ (l acc : List α),
    l.foldl (fun acc x => acc ++ [x]) acc = acc ++ l := by
  intro l
  induction l with
  | nil => intro acc; simp
  | cons x xs ih => intro acc; simp [ih]

theorem rewrite_links_eq (l : List LinkAnnot) : rewrite_links l = l := by
  unfold rewrite_links
  rw [foldl_append_eq]
  simp

theorem foldGuardedInsert_preserves {α : Type} :
    ∀ (catalog : List (String × α)) (acc : List (String × α)) (n : String) (p : α),
      dictLookup n acc = some p →
      dictLookup n (catalog.foldl (fun acc nv =>
        if (dictLookup nv.1 acc).isSome then acc else dictInsert nv.1 nv.2 acc) acc) = some p := by
  intro catalog
  induction catalog with
  | nil => intro acc n p h; simpa using h
  | cons e rest ih =>
    intro acc n p h
    simp only [List.foldl_cons]
    by_cases hg : (dictLookup e.1 acc).isSome
    · simp only [hg, if_true]
      exact ih acc n p h
    · simp only [hg, Bool.false_eq_true, if_false]
      apply ih
      by_cases he : e.1 = n
      · exact absurd (by simp [he, h]) hg
      · rw [dictLookup_insert_ne _ he]
        exact h

theorem foldInsert_keys_ne {α : Type} {k : String} :
    ∀ (l : List (String × α)) (acc : List (String × α)),
      (∀ e ∈ acc, e.1 ≠ k) → (∀ e ∈ l, e.1 ≠ k) →
      ∀ e ∈ l.foldl (fun acc kv => dictInsert kv.1 kv.2 acc) acc, e.1 ≠ k := by
  intro l
  induction l with
  | nil => intro acc ha _ e he; exact ha e he
  | cons x xs ih =>
    intro acc ha hl e he
    simp only [List.foldl_cons] at he
    refine ih _ ?_ ?_ e he
    · intro e' he'
      rcases mem_dictInsert he' with h | h
      · rw [h]
        exact hl x (List.mem_cons_self _ _)
      · exact ha e' h
    · intro e' he'
      exact hl e' (List.mem_cons_of_mem _ he')

theorem findHitIdx_some_get {α : Type} {p : α → Bool} :
    ∀ {l : List α} {i : Nat}, findHitIdx p l = some i →
      ∃ a, l.get? i = some a ∧ p a = true := by
  intro l
  induction l with
  | nil => intro i h; simp [findHitIdx] at h
  | cons x xs ih =>
    intro i h
    by_cases hp : p x
    · simp only [findHitIdx, hp, if_true, Option.some.injEq] at h
      subst h
      exact ⟨x, rfl, hp⟩
    · simp only [findHitIdx, hp, Bool.false_eq_true, if_false, Option.map_eq_some'] at h
      obtain ⟨j, hj, rfl⟩ := h
      obtain ⟨a, ha, hpa⟩ := ih hj
      exact ⟨a, by simpa using ha, hpa⟩

theorem findHitIdx_first {α : Type} {p : α → Bool} :
    ∀ {l : List α} {i : Nat}, findHitIdx p l = some i →
      ∀ j, j < i → ∀ a, l.get? j = some a → p a = false := by
  intro l
  induction l with
  | nil => intro i h; simp [findHitIdx] at h
  | cons x xs ih =>
    intro i h j hj a ha
    by_cases hp : p x
    · simp only [findHitIdx, hp, if_true, Option.some.injEq] at h
      omega
    · simp only [findHitIdx, hp, Bool.false_eq_true, if_false, Option.map_eq_some'] at h
      obtain ⟨k, hk, rfl⟩ := h
      cases j with
      | zero =>
        simp only [List.get?] at ha
        cases ha
        simpa using hp
      | succ j' =>
        exact ih hk j' (by omega) a (by simpa using ha)

theorem findHitIdx_none_iff {α : Type} {p : α → Bool} :
    ∀ {l : List α}, findHitIdx p l = none ↔ ∀ a ∈ l, p a = false := by
  intro l
  induction l with
  | nil => simp [findHitIdx]
  | cons x xs ih =>
    by_cases hp : p x
    · simp [findHitIdx, hp]
    · simp [findHitIdx, hp, Option.map_eq_none', ih]

theorem deleteFirstHit_of_some {α : Type} {p : α → Bool} :
    ∀ {l : List α} {i : Nat}, findHitIdx p l = some i →
      deleteFirstHit p l = (l.eraseIdx i, true) := by
  intro l
  induction l with
  | nil => intro i h; simp [findHitIdx] at h
  | cons x xs ih =>
    intro i h
    by_cases hp : p x
    · simp only [findHitIdx, hp, if_true, Option.some.injEq] at h
      subst h
      simp [deleteFirstHit, hp]
    · simp only [findHitIdx, hp, Bool.false_eq_true, if_false, Option.map_eq_some'] at h
      obtain ⟨k, hk, rfl⟩ := h
      simp [deleteFirstHit, hp, ih hk]

theorem deleteFirstHit_of_none {α : Type} {p : α → Bool} :
    ∀ {l : List α}, findHitIdx p l = none → deleteFirstHit p l = (l, false) := by
  intro l
  induction l with
  | nil => intro h; rfl
  | cons x xs ih =>
    intro h
    by_cases hp : p x
    · simp [findHitIdx, hp] at h
    · simp only [findHitIdx, hp, Bool.false_eq_true, if_false, Option.map_eq_none'] at h
      simp [deleteFirstHit, hp, ih h]

/-! ## Claim theorems -/

/-- Claim C2: coordinate mapping is an exact inverse.  For every point `p`,
page height `h > 0` and zoom `z` in `[0.5, 3.0]`, converting `p` from
native (bottom-left-origin) coordinates to display (top-left-origin,
zoom-scaled) coordinates and back yields `p` exactly (the model computes in
ℚ, so exact equality implies equality within floating-point tolerance). -/
theorem coordinate_mapping_inverse (p : ℚ × ℚ) (h z : ℚ) (_hh : 0 < h)
    (hz1 : 1 / 2 ≤ z) (_hz2 : z ≤ 3) :
    toNative (toDisplay p h z) h z = p := by
  have hzne : z ≠ 0 := by
    intro he
    rw [he] at hz1
    norm_num at hz1
  obtain ⟨px, py⟩ := p
  simp only [toDisplay, toNative, storeToDisplay, displayToStore, nativeToStore, storeToNative,
    Prod.mk.injEq]
  constructor
  · field_simp
  · field_simp

theorem coordinate_mapping_inverse_w :
    (0 : ℚ) < 50 ∧ (1 : ℚ) / 2 ≤ 2 ∧ (2 : ℚ) ≤ 3
  ∧ toNative (toDisplay (7, 11) 50 2) 50 2 = ((7 : ℚ), (11 : ℚ)) :=
  ⟨by norm_num, by norm_num, by norm_num,
   coordinate_mapping_inverse (7, 11) 50 2 (by norm_num) (by norm_num) (by norm_num)⟩

/-- Claim C3: load-time merge precedence.  For every destination id that is
resolved from the structured `/Names` tree, the position recorded by
`load_existing_destinations` is the one from the `/Names` tree, whatever
the catalog-level `/Dests` table contains: a catalog duplicate is skipped
by the `continue` guard. -/
theorem names_tree_precedence (names catalog : List (String × DestPos)) (n : String)
    (p : DestPos) (h : dictLookup n (load_dests_names names) = some p) :
    dictLookup n (load_existing_destinations names catalog) = some p := by
  unfold load_existing_destinations
  exact foldGuardedInsert_preserves catalog _ n p h

theorem names_tree_precedence_w :
    dictLookup "a" (load_dests_names [("a", ((0 : Nat), (1 : ℚ), (2 : ℚ)))]) = some (0, 1, 2)
  ∧ dictLookup "a" (load_existing_destinations [("a", ((0 : Nat), (1 : ℚ), (2 : ℚ)))]
      [("a", ((5 : Nat), (9 : ℚ), (9 : ℚ))), ("b", ((1 : Nat), (0 : ℚ), (0 : ℚ)))]) =
      some (0, 1, 2) :=
  ⟨by decide,
   names_tree_precedence [("a", (0, 1, 2))] [("a", (5, 9, 9)), ("b", (1, 0, 0))] "a" (0, 1, 2)
     (by decide)⟩

/-- Claim C9: failed-save atomicity.  A save attempt with the `pypdf`
write-time dependency missing leaves every part of the in-memory session
state (the section list, both position maps, the custom list, and the
link-region list) unchanged, and reports either the early no-changes exit
or the missing dependency, never success. -/
theorem failed_save_preserves_state (st : PickerState) (docLinks : List LinkAnnot) :
    (save_and_quit false st docLinks).1.sections = st.sections
  ∧ (save_and_quit false st docLinks).1.destinations = st.destinations
  ∧ (save_and_quit false st docLinks).1.existing_destinations = st.existing_destinations
  ∧ (save_and_quit false st docLinks).1.custom_sections = st.custom_sections
  ∧ (save_and_quit false st docLinks).1.link_annotations = st.link_annotations
  ∧ ((save_and_quit false st docLinks).2 = SaveResult.noChanges
      ∨ (save_and_quit false st docLinks).2 = SaveResult.missingDependency) := by
  unfold save_and_quit
  by_cases hc : (all_destinations st).isEmpty && !has_link_changes st
  · simp [hc]
  · simp [hc]

/-! ## Example session for the save-time link diff -/

/-- Original document link A. -/
def exLinkA : LinkAnnot := ⟨0, ⟨0, 0, 1, 1⟩, "a", "local", true⟩

/-- Original document link B (deleted during the example session). -/
def exLinkB : LinkAnnot := ⟨0, ⟨2, 2, 3, 3⟩, "b", "local", true⟩

/-- Original document link C. -/
def exLinkC : LinkAnnot := ⟨0, ⟨4, 4, 5, 5⟩, "c", "local", true⟩

/-- Link D, created by the example drag gesture. -/
def exLinkD : LinkAnnot := ⟨0, ⟨10, 10, 20, 20⟩, "d", "local", false⟩

/-- A freshly loaded session whose document carried links `[A, B, C]`. -/
def exLoadedState : PickerState :=
  { sections := [⟨some "d", some "D", some "local", false⟩],
    current_section_idx := 0,
    destinations := [],
    existing_destinations := [],
    custom_sections := [],
    link_annotations := [exLinkA, exLinkB, exLinkC],
    original_link_count := 3,
    current_page := 0,
    zoom := 1 }

/-- The example session: click-delete link B at `(2.5, 2.5)`, then drag
from `(10, 10)` to `(20, 20)` to create link D. -/
def exSessionState : PickerState :=
  on_mouse_up (delete_link_at_position exLoadedState (5 / 2) (5 / 2)).1 10 10 20 20

theorem exSessionState_eval :
    exSessionState = { exLoadedState with link_annotations := [exLinkA, exLinkC, exLinkD] } := by
  unfold exSessionState
  norm_num [delete_link_at_position, deleteFirstHit, linkHit, exLoadedState, exLinkA, exLinkB,
    exLinkC, exLinkD, on_mouse_up, sectionId]
  intro h
  exact absurd h (by decide)

theorem exSessionState_has_changes : has_link_changes exSessionState = true := by
  rw [exSessionState_eval]
  norm_num [has_link_changes, new_links, exLoadedState, exLinkA, exLinkB, exLinkC, exLinkD]

theorem exLoadedState_no_new : new_links exLoadedState = [] := by
  norm_num [new_links, exLoadedState, exLinkA, exLinkB, exLinkC]

theorem exLoadedState_no_removed : removed_existing_links exLoadedState = 0 := by
  norm_num [removed_existing_links, kept_existing_links, exLoadedState, exLinkA, exLinkB, exLinkC]

/-- Claim C1: save-time link diff.  If no `UserCreated` link was added and
no `FromDocument` link was removed, saving performs no link rewrite (the
document's links stay untouched).  Otherwise every link annotation in the
document is removed and exactly the session's current link list — the
preserved `FromDocument` links and the added `UserCreated` links, in
session order — is recreated.  In particular, for original links
`[A, B, C]`, deleting `B` and adding `D` yields exactly `[A, C, D]`. -/
theorem save_link_diff (st : PickerState) (docLinks : List LinkAnnot) :
    (new_links st = [] → removed_existing_links st = 0 → finalDocLinks st docLinks = docLinks)
  ∧ (has_link_changes st = true → finalDocLinks st docLinks = st.link_annotations)
  ∧ (has_link_changes st = true →
        (finalDocLinks st docLinks).filter (fun l => l.existing) = kept_existing_links st
      ∧ (finalDocLinks st docLinks).filter (fun l => !l.existing) = new_links st)
  ∧ finalDocLinks exSessionState [exLinkA, exLinkB, exLinkC] = [exLinkA, exLinkC, exLinkD] := by
  refine ⟨?_, ?_, ?_, ?_⟩
  · intro h1 h2
    have hc : has_link_changes st = false := by
      simp [has_link_changes, h1, h2]
    simp [finalDocLinks, hc]
  · intro hc
    simp [finalDocLinks, hc, rewrite_links_eq]
  · intro hc
    simp only [finalDocLinks, hc, if_true, rewrite_links_eq]
    exact ⟨rfl, rfl⟩
  · rw [finalDocLinks, if_pos exSessionState_has_changes, rewrite_links_eq,
      exSessionState_eval]

theorem save_link_diff_w :
    (new_links exLoadedState = [] ∧ removed_existing_links exLoadedState = 0
      ∧ finalDocLinks exLoadedState [exLinkA, exLinkB, exLinkC] = [exLinkA, exLinkB, exLinkC])
  ∧ (has_link_changes exSessionState = true
      ∧ finalDocLinks exSessionState [exLinkA, exLinkB, exLinkC] =
          exSessionState.link_annotations) :=
  ⟨⟨exLoadedState_no_new, exLoadedState_no_removed,
    (save_link_diff exLoadedState [exLinkA, exLinkB, exLinkC]).1 exLoadedState_no_new
      exLoadedState_no_removed⟩,
   ⟨exSessionState_has_changes,
    (save_link_diff exSessionState [exLinkA, exLinkB, exLinkC]).2.1 exSessionState_has_changes⟩⟩

/-- Claim C4: `remove_destination` cascades.  With a valid current index
(and a confirming user), after removal no link annotation in the store
references the removed section's id and neither position map records that
id; with an out-of-range index the whole state is returned unchanged (the
method returns before doing anything, which is how the `OutOfRange`
failure of the spec manifests in this GUI method). -/
theorem remove_destination_spec (st : PickerState) :
    (∀ s, st.sections.get? st.current_section_idx = some s →
        (∀ l ∈ (remove_destination true st).link_annotations, l.dest_id ≠ sectionId s)
      ∧ dictLookup (sectionId s) (remove_destination true st).destinations = none
      ∧ dictLookup (sectionId s) (remove_destination true st).existing_destinations = none)
  ∧ (st.sections.get? st.current_section_idx = none → ∀ c, remove_destination c st = st) := by
  constructor
  · intro s hs
    refine ⟨?_, ?_, ?_⟩
    · intro l hl
      simp only [remove_destination, hs, Bool.not_true, Bool.false_eq_true, if_false] at hl
      have := List.of_mem_filter hl
      simpa using this
    · simp only [remove_destination, hs, Bool.not_true, Bool.false_eq_true, if_false]
      exact dictLookup_erase_self _ _
    · simp only [remove_destination, hs, Bool.not_true, Bool.false_eq_true, if_false]
      exact dictLookup_erase_self _ _
  · intro h c
    simp only [remove_destination, h]

/-- A concrete two-section session for the cascade witness. -/
def exRemState : PickerState :=
  { sections := [⟨some "a", some "A", none, false⟩, ⟨some "b", some "B", none, false⟩],
    current_section_idx := 0,
    destinations := [("a", (0, 1, 2)), ("b", (0, 3, 4))],
    existing_destinations := [("a", (0, 5, 6))],
    custom_sections := [],
    link_annotations := [⟨0, ⟨0, 0, 1, 1⟩, "a", "local", true⟩,
      ⟨0, ⟨2, 2, 3, 3⟩, "b", "local", true⟩],
    original_link_count := 2,
    current_page := 0,
    zoom := 1 }

/-- The same session with the current index out of range. -/
def exRemStateOOR : PickerState := { exRemState with current_section_idx := 5 }

theorem remove_destination_spec_w :
    exRemState.sections.get? 0 = some ⟨some "a", some "A", none, false⟩
  ∧ dictLookup "a" (remove_destination true exRemState).destinations = none
  ∧ dictLookup "a" (remove_destination true exRemState).existing_destinations = none
  ∧ exRemStateOOR.sections.get? 5 = none
  ∧ remove_destination true exRemStateOOR = exRemStateOOR :=
  ⟨by decide,
   ((remove_destination_spec exRemState).1 ⟨some "a", some "A", none, false⟩ (by decide)).2.1,
   ((remove_destination_spec exRemState).1 ⟨some "a", some "A", none, false⟩ (by decide)).2.2,
   by decide,
   (remove_destination_spec exRemStateOOR).2 (by decide) true⟩

/-- Claim C6: direct-page-jump link resolution.  A `LINK_GOTO` annotation
carrying only a raw position is resolved against the discovered
destinations by exact page-index match and coordinates strictly within 5
units; when resolution succeeds the matched id is used, and when it fails
the link is kept with the synthesized pseudo-target id `page-<n+1>` for
zero-based target page `n` (also when there is no raw position at all).
The classification is a total function, so a resolution failure is never
fatal to loading. -/
theorem goto_link_resolution (existing : List (String × DestPos)) (pg : Nat) (r : Rect4)
    (dp : Nat) (tx ty : ℚ) :
    (∀ d, find_destination_by_position existing dp tx ty 5 = some d →
        classify_goto_link existing pg r dp none (some (tx, ty)) = ⟨pg, r, d, "local", true⟩)
  ∧ (find_destination_by_position existing dp tx ty 5 = none →
        classify_goto_link existing pg r dp none (some (tx, ty)) =
          ⟨pg, r, "page-" ++ toString (dp + 1), "page", true⟩)
  ∧ ((find_destination_by_position existing dp tx ty 5).isSome = true ↔
        ∃ e ∈ existing, e.2.1 = dp ∧ |e.2.2.1 - tx| < 5 ∧ |e.2.2.2 - ty| < 5)
  ∧ (classify_goto_link existing pg r dp none none).dest_id = "page-" ++ toString (dp + 1) := by
  refine ⟨?_, ?_, ?_, rfl⟩
  · intro d hd
    simp [classify_goto_link, hd]
  · intro hn
    simp [classify_goto_link, hn]
  · induction existing with
    | nil => simp [find_destination_by_position]
    | cons e rest ih =>
      by_cases he : e.2.1 = dp ∧ |e.2.2.1 - tx| < 5 ∧ |e.2.2.2 - ty| < 5
      · simp only [find_destination_by_position]
        rw [if_pos he]
        simp only [Option.isSome_some, true_iff]
        exact ⟨e, List.mem_cons_self _ _, he⟩
      · simp only [find_destination_by_position]
        rw [if_neg he]
        rw [ih]
        constructor
        · rintro ⟨e', he', hcond⟩
          exact ⟨e', List.mem_cons_of_mem _ he', hcond⟩
        · rintro ⟨e', he', hcond⟩
          rcases List.mem_cons.mp he' with h2 | h2
          · subst h2
            exact absurd hcond he
          · exact ⟨e', h2, hcond⟩

/-- The discovered destinations of the resolution witness. -/
def exExisting : List (String × DestPos) := [("intro", (0, 100, 700))]

theorem goto_link_resolution_w :
    find_destination_by_position exExisting 0 102 703 5 = some "intro"
  ∧ classify_goto_link exExisting 3 ⟨0, 0, 1, 1⟩ 0 none (some (102, 703)) =
      ⟨3, ⟨0, 0, 1, 1⟩, "intro", "local", true⟩
  ∧ find_destination_by_position exExisting 1 102 703 5 = none
  ∧ (classify_goto_link exExisting 3 ⟨0, 0, 1, 1⟩ 1 none (some (102, 703))).dest_id =
      "page-2" := by
  have h1 : find_destination_by_position exExisting 0 102 703 5 = some "intro" := by
    norm_num [find_destination_by_position, exExisting]
  have h2 : find_destination_by_position exExisting 1 102 703 5 = none := by
    norm_num [find_destination_by_position, exExisting]
  refine ⟨h1, (goto_link_resolution exExisting 3 ⟨0, 0, 1, 1⟩ 0 102 703).1 "intro" h1, h2, ?_⟩
  rw [(goto_link_resolution exExisting 3 ⟨0, 0, 1, 1⟩ 1 102 703).2.1 h2]
  rfl

/-- The empty session used for the `add_custom_destination` evaluations. -/
def exEmptyState : PickerState :=
  { sections := [],
    current_section_idx := 0,
    destinations := [],
    existing_destinations := [],
    custom_sections := [],
    link_annotations := [],
    original_link_count := 0,
    current_page := 0,
    zoom := 1 }

/-- Claim C7 (evaluation at the failing input): `add_custom_destination`
is a no-op for a cancelled dialog and for the empty string (Python's
`if text:` is false), but for the whitespace-only input `"   "` the
guard passes, the text is stripped to `""` only afterwards, and a local
destination whose id and title are both the empty string is appended —
contradicting the documented no-op contract for whitespace input. -/
theorem add_custom_destination_whitespace_eval :
    add_custom_destination exEmptyState none = exEmptyState
  ∧ add_custom_destination exEmptyState (some "") = exEmptyState
  ∧ (add_custom_destination exEmptyState (some "   ")).sections =
      [⟨some "", some "", some "local", true⟩]
  ∧ sectionId ⟨some "", some "", some "local", true⟩ = "" := by
  refine ⟨rfl, by decide, by decide, rfl⟩

/-- Claim C8: hit-testing tie-break.  The hover search returns the index of
the first link region in insertion order on the current page whose
zoom-scaled rectangle contains the point (every earlier region misses),
returns nothing exactly when no region on the page contains the point, and
`delete_link_at_position` deletes precisely the region found by that same
first-match rule (and reports failure, changing nothing, when there is no
hit) — so hover-highlight and click-to-delete share one tie-break. -/
theorem hit_test_first_match (st : PickerState) (cx cy : ℚ) :
    (∀ i, on_mouse_motion_hover st cx cy = some i →
        (∃ l, st.link_annotations.get? i = some l
          ∧ linkHit st.zoom st.current_page cx cy l = true)
      ∧ ∀ j, j < i → ∀ l, st.link_annotations.get? j = some l →
          linkHit st.zoom st.current_page cx cy l = false)
  ∧ (on_mouse_motion_hover st cx cy = none ↔
      ∀ l ∈ st.link_annotations, linkHit st.zoom st.current_page cx cy l = false)
  ∧ (∀ i, on_mouse_motion_hover st cx cy = some i →
      delete_link_at_position st cx cy =
        ({ st with link_annotations := st.link_annotations.eraseIdx i }, true))
  ∧ (on_mouse_motion_hover st cx cy = none →
      delete_link_at_position st cx cy = (st, false)) := by
  refine ⟨?_, ?_, ?_, ?_⟩
  · intro i hi
    exact ⟨findHitIdx_some_get hi, findHitIdx_first hi⟩
  · exact findHitIdx_none_iff
  · intro i hi
    simp [delete_link_at_position, deleteFirstHit_of_some hi]
  · intro hn
    simp [delete_link_at_position, deleteFirstHit_of_none hn]

/-- A session with two overlapping link regions on page 0. -/
def exOverlapState : PickerState :=
  { sections := [],
    current_section_idx := 0,
    destinations := [],
    existing_destinations := [],
    custom_sections := [],
    link_annotations := [⟨0, ⟨0, 0, 10, 10⟩, "a", "local", true⟩,
      ⟨0, ⟨5, 5, 15, 15⟩, "b", "local", true⟩],
    original_link_count := 2,
    current_page := 0,
    zoom := 1 }

theorem hit_test_first_match_w :
    on_mouse_motion_hover exOverlapState 7 7 = some 0
  ∧ delete_link_at_position exOverlapState 7 7 =
      ({ exOverlapState with
          link_annotations := exOverlapState.link_annotations.eraseIdx 0 }, true) := by
  have h0 : on_mouse_motion_hover exOverlapState 7 7 = some 0 := by
    norm_num [on_mouse_motion_hover, findHitIdx, linkHit, exOverlapState]
  exact ⟨h0, (hit_test_first_match exOverlapState 7 7).2.2.1 0 h0⟩

/-- Claim C10: removing the current destination's position deletes the id
from both the session edit map and the document-discovered map, so a
subsequent save finds no entry for that id in the merged
`all_destinations` map and writes no positional destination entry for it:
the document-resident position is permanently dropped. -/
theorem remove_current_position_dropped (st : PickerState) (s : SectionEntry)
    (h : st.sections.get? st.current_section_idx = some s) :
    dictLookup (sectionId s) (remove_current_destination st).destinations = none
  ∧ dictLookup (sectionId s) (remove_current_destination st).existing_destinations = none
  ∧ ∀ e ∈ all_destinations (remove_current_destination st), e.1 ≠ sectionId s := by
  refine ⟨?_, ?_, ?_⟩
  · simp only [remove_current_destination, h]
    exact dictLookup_erase_self _ _
  · simp only [remove_current_destination, h]
    exact dictLookup_erase_self _ _
  · intro e he
    simp only [all_destinations] at he
    have he2 := List.mem_of_mem_filter he
    simp only [remove_current_destination, h] at he2
    exact foldInsert_keys_ne _ _
      (fun e' he' => key_ne_of_mem_dictErase he')
      (fun e' he' => key_ne_of_mem_dictErase he') e he2

/-- A session whose only destination position was discovered in the PDF. -/
def exDocState : PickerState :=
  { sections := [⟨some "intro", some "Intro", none, false⟩],
    current_section_idx := 0,
    destinations := [],
    existing_destinations := [("intro", (0, 10, 20))],
    custom_sections := [],
    link_annotations := [],
    original_link_count := 0,
    current_page := 0,
    zoom := 1 }

theorem remove_current_position_dropped_w :
    exDocState.sections.get? 0 = some ⟨some "intro", some "Intro", none, false⟩
  ∧ dictLookup "intro" (remove_current_destination exDocState).existing_destinations = none
  ∧ all_destinations (remove_current_destination exDocState) = [] :=
  ⟨by decide,
   (remove_current_position_dropped exDocState ⟨some "intro", some "Intro", none, false⟩
     (by decide)).2.1,
   by decide⟩
